import Mathlib

/-!
Shallow embedding of `src/app.py` (audioscribe): a FastAPI service that stores
uploaded audio files under `uploads/`, keeps two SQLite tables
`audio(id, filename, original_name)` and `segments(audio_id, start, end, text)`,
and exposes handlers `transcribe`, `library`, `audio_data`, `delete_audio`,
`get_audio`, plus a file-backed configuration loader `load_config`.

SQLite tables are modelled as insertion-ordered lists of rows: both tables are
only ever appended to and deleted from by `WHERE`-filters, so `SELECT` without
`ORDER BY` returns rows in rowid (= insertion) order.  The filesystem under the
uploads directory is modelled as the list of paths currently present.  The
Whisper model is an opaque collaborator: its output (or failure) is a parameter
of `transcribe`.  `REAL` columns hold values that the code never computes with,
only stores and returns; they are modelled as `Rat`.
-/

namespace Audioscribe

/-- `UPLOAD_DIR = "uploads"` (app.py line 13). -/
def UPLOAD_DIR : String := "uploads"

/-- One row of the `audio` table: `audio(id TEXT PRIMARY KEY, filename TEXT, original_name TEXT)`. -/
structure AudioRow where
  id : String
  filename : String
  original_name : String
deriving DecidableEq, Repr

/-- One timed transcript segment as produced by the transcription collaborator:
`s['start']`, `s['end']`, `s['text']`.  The `end` field is named `endTime`
because `end` is a Lean keyword. -/
structure Seg where
  start : Rat
  endTime : Rat
  text : String
deriving DecidableEq, Repr

/-- One row of the `segments` table: `segments(audio_id TEXT, start REAL, end REAL, text TEXT)`. -/
structure SegmentRow where
  audio_id : String
  start : Rat
  endTime : Rat
  text : String
deriving DecidableEq, Repr

/-- The relational store: the two tables, each as the insertion-ordered list of
its rows. -/
structure DB where
  audio : List AudioRow
  segments : List SegmentRow
deriving DecidableEq, Repr

/-- Full system state: the database plus the list of file paths present on disk. -/
structure Sys where
  db : DB
  files : List String
deriving DecidableEq, Repr

/-- The state right after startup: both tables freshly created and empty, no
uploaded files. -/
def initSys : Sys := ⟨⟨[], []⟩, []⟩

/-- Whether a string begins with the character `/`. -/
def headIsSlash (s : String) : Bool :=
  match s.data with
  | [] => false
  | c :: _ => c == '/'

/-- Whether a string ends with the character `/`. -/
def lastIsSlash (s : String) : Bool :=
  match s.data.getLast? with
  | some c => c == '/'
  | none => false

/-- `os.path.join a b` for POSIX paths as used by app.py: an absolute second
component replaces the first, otherwise the two are joined with a single
separator. -/
def joinPath (a b : String) : String :=
  if headIsSlash b then b
  else if a = "" then b
  else if lastIsSlash a then a ++ b
  else a ++ "/" ++ b

/-- `cursor.execute("SELECT filename FROM audio WHERE id=?", ...)` followed by
`fetchone()`: the first audio row with the given id, if any. -/
def lookupAudio (db : DB) (audio_id : String) : Option AudioRow :=
  db.audio.find? (fun r => r.id == audio_id)

/-- `cursor.execute("SELECT start, end, text FROM segments WHERE audio_id=?", ...)`
followed by `fetchall()`: all segment rows with the given audio id, in
insertion order. -/
def segmentsFor (db : DB) (audio_id : String) : List SegmentRow :=
  db.segments.filter (fun s => s.audio_id == audio_id)

/-- The segment row inserted by `transcribe` for collaborator segment `s` of
audio `audio_id` (app.py lines 701-704). -/
def toRow (audio_id : String) (s : Seg) : SegmentRow :=
  ⟨audio_id, s.start, s.endTime, s.text⟩

/-- The `(start, end, text)` projection of a segment row, as returned by
`audio_data`. -/
def toSeg (r : SegmentRow) : Seg :=
  ⟨r.start, r.endTime, r.text⟩

/-- How a request to `GET /audio_data/...` can fail.  `crash` models the
uncaught `TypeError` raised by `cursor.fetchone()[0]` when no row matches,
which FastAPI surfaces as HTTP 500; `notFound` models a 404-equivalent
NotFound result, which the handler never actually produces. -/
inductive ReadErr where
  | notFound
  | crash
deriving DecidableEq, Repr

/-- The JSON payload of `GET /audio_data/...`. -/
structure Detail where
  audio_url : String
  segments : List Seg
deriving DecidableEq, Repr

/-- `GET /audio_data/...` handler (app.py lines 714-725): fetch the stored
filename (crashing if the id is unknown), fetch the segment rows for the id,
and return the url together with the projected segments. -/
def audio_data (db : DB) (audio_id : String) : Except ReadErr Detail :=
  match lookupAudio db audio_id with
  | none => .error .crash
  | some row =>
      .ok { audio_url := "/audio/" ++ row.filename,
            segments := (segmentsFor db audio_id).map toSeg }

/-- Outcome of persisting the uploaded bytes
(`with open(path, "wb") as f: f.write(file.file.read())`, app.py lines 693-694). -/
inductive SaveOutcome where
  | ok
  | openFailed
  | writeFailed
deriving DecidableEq, Repr

/-- Ways the `transcribe` handler can raise before returning. -/
inductive UploadErr where
  | saveFailed
  | transcriptionFailed
  | duplicateKey
deriving DecidableEq, Repr

/-- `POST /transcribe` handler (app.py lines 687-707).  `audio_id` is the fresh
`uuid.uuid4()` string, `origName` is `file.filename`, `save` is the outcome of
writing the uploaded bytes to disk, and `collab` is the collaborator's ordered
segment list or its failure.  Returns the error raised (if any) together with
the resulting system state: on `openFailed` nothing was written; on
`writeFailed` the file exists but the handler aborted; on collaborator failure
the saved file is orphaned; on a duplicate primary key the `INSERT INTO audio`
raises before any row lands; otherwise the audio row is inserted followed by
one segment row per collaborator segment, in order, and the handler returns
success. -/
def transcribe (st : Sys) (audio_id origName : String) (save : SaveOutcome)
    (collab : Except Unit (List Seg)) : Option UploadErr × Sys :=
  let filename := audio_id ++ "_" ++ origName
  let path := joinPath UPLOAD_DIR filename
  match save with
  | .openFailed => (some .saveFailed, st)
  | .writeFailed => (some .saveFailed, { st with files := st.files ++ [path] })
  | .ok =>
      let st1 : Sys := { st with files := st.files ++ [path] }
      match collab with
      | .error _ => (some .transcriptionFailed, st1)
      | .ok segs =>
          if st1.db.audio.any (fun r => r.id == audio_id) then
            (some .duplicateKey, st1)
          else
            (none,
             { st1 with db :=
                { audio := st1.db.audio ++ [⟨audio_id, filename, origName⟩],
                  segments := st1.db.segments ++ segs.map (toRow audio_id) } })

/-- `GET /library` handler (app.py lines 709-712): all `(id, original_name)`
pairs, in table order. -/
def library (db : DB) : List (String × String) :=
  db.audio.map (fun r => (r.id, r.original_name))

/-- `os.remove p`: removes the file, raising `FileNotFoundError` if it is
absent. -/
def os_remove (files : List String) (p : String) : Except Unit (List String) :=
  if p ∈ files then .ok (files.filter (fun q => q != p)) else .error ()

/-- `DELETE /delete/...` handler (app.py lines 727-747): look up the row; if
present, remove the file only when it exists (`if os.path.exists(filepath):
os.remove(filepath)`), delete the segment rows and the audio row, and answer
`"deleted"`; if absent, answer `"not_found"`.  The `Except` layer records any
exception the handler would let escape. -/
def delete_audio (st : Sys) (audio_id : String) : Except Unit (Sys × String) :=
  match lookupAudio st.db audio_id with
  | some row =>
      let filepath := joinPath UPLOAD_DIR row.filename
      (if filepath ∈ st.files then os_remove st.files filepath else .ok st.files).bind
        (fun files1 =>
          .ok ({ db := { audio := st.db.audio.filter (fun r => r.id != audio_id),
                         segments := st.db.segments.filter (fun s => s.audio_id != audio_id) },
                 files := files1 }, "deleted"))
  | none => .ok (st, "not_found")

/-- `GET /audio/...` handler (app.py lines 749-751): the path of the file
served by `FileResponse`, the unvalidated join of the uploads directory with
the request's filename. -/
def get_audio (filename : String) : String :=
  joinPath UPLOAD_DIR filename

/-- Splits a character list at `/`, keeping the runs between separators. -/
def splitSlashAux (cur : List Char) : List Char → List (List Char)
  | [] => [cur.reverse]
  | c :: rest =>
      if c == '/' then cur.reverse :: splitSlashAux [] rest
      else splitSlashAux (c :: cur) rest

/-- The non-empty components of a POSIX path. -/
def pathComponents (p : String) : List String :=
  ((splitSlashAux [] p.data).map (fun cs => String.mk cs)).filter (fun c => c != "")

/-- POSIX path resolution on components: `.` is dropped and `..` pops the
previous component (accumulator holds resolved components in reverse). -/
def resolveAux (acc : List String) : List String → List String
  | [] => acc.reverse
  | c :: rest =>
      if c == "." then resolveAux acc rest
      else if c == ".." then
        match acc with
        | [] => resolveAux [".."] rest
        | a :: tl => if a == ".." then resolveAux (".." :: a :: tl) rest else resolveAux tl rest
      else resolveAux (c :: acc) rest

/-- The resolved component list of a path, after eliminating `.` and `..`. -/
def resolvePath (p : String) : List String :=
  resolveAux [] (pathComponents p)

/-- A path stays inside the uploads directory when its resolution still begins
with the `uploads` component. -/
def resolvedInsideUploads (p : String) : Prop :=
  ∃ rest, resolvePath p = UPLOAD_DIR :: rest

/-- Typed view of the three recognised settings, with the defaults of
`default_config` (app.py lines 22-26). -/
structure Config where
  language : String
  model_size : String
  device : String
deriving DecidableEq, Repr

/-- `default_config = {language: "ja", model_size: "base", device: "cpu"}`. -/
def default_config : Config :=
  { language := "ja", model_size := "base", device := "cpu" }

/-- The three recognised keys of a parsed `config.json`, each possibly absent. -/
structure ConfigFile where
  language : Option String
  model_size : Option String
  device : Option String
deriving DecidableEq, Repr

/-- The observable condition of `config.json` at startup: absent, or present
with the result of `json.load` (`none` when loading raises). -/
inductive ConfigFileState where
  | absent
  | present (parsed : Option ConfigFile)
deriving DecidableEq, Repr

/-- The dict merge `{**default_config, **config}` restricted to the recognised
keys: a key present in the file overrides the default, a missing key falls
back to it. -/
def mergeConfig (cf : ConfigFile) : Config :=
  { language := cf.language.getD default_config.language,
    model_size := cf.model_size.getD default_config.model_size,
    device := cf.device.getD default_config.device }

/-- `load_config` (app.py lines 20-43): returns the effective configuration
together with the contents of the config file it creates, if it creates one.
Present and parsed: merge over defaults, nothing created.  Present but
unparseable: defaults, nothing created.  Absent: the defaults are written out
and used. -/
def load_config : ConfigFileState → Config × Option Config
  | .absent => (default_config, some default_config)
  | .present none => (default_config, none)
  | .present (some cf) => (mergeConfig cf, none)

/-- One client-visible API operation, with the environment inputs (fresh id,
save outcome, collaborator result) that the corresponding handler consumes. -/
inductive Op where
  | upload (audio_id origName : String) (save : SaveOutcome) (collab : Except Unit (List Seg))
  | delete (audio_id : String)
  | viewLibrary
  | viewDetail (audio_id : String)
  | serveFile (filename : String)
deriving Repr

/-- State transition of one completed API operation.  `library`, `audio_data`
and `get_audio` are pure reads; a `delete_audio` exception (never reachable)
would leave the state unchanged. -/
def step (st : Sys) : Op → Sys
  | .upload a n s c => (transcribe st a n s c).2
  | .delete a =>
      match delete_audio st a with
      | .ok (st1, _) => st1
      | .error _ => st
  | .viewLibrary => st
  | .viewDetail _ => st
  | .serveFile _ => st

/-- The system state after a sequence of API operations from startup. -/
def run (ops : List Op) : Sys :=
  ops.foldl step initSys

/-- Referential integrity: every segment row's `audio_id` is the id of some
row of the `audio` table. -/
def refIntegrity (db : DB) : Prop :=
  ∀ s ∈ db.segments, ∃ r ∈ db.audio, r.id = s.audio_id

lemma audio_data_none {db : DB} {a : String} (h : lookupAudio db a = none) :
    audio_data db a = Except.error ReadErr.crash := by
  unfold audio_data
  rw [h]

lemma audio_data_some {db : DB} {a : String} {row : AudioRow}
    (h : lookupAudio db a = some row) :
    audio_data db a =
      Except.ok ⟨"/audio/" ++ row.filename, (segmentsFor db a).map toSeg⟩ := by
  unfold audio_data
  rw [h]

/-- C1 (corrected): on an id with no AudioRecord, `GET /audio_data` does not
produce a 404-equivalent NotFound result but raises the uncaught `TypeError`
of `cursor.fetchone()[0]` (a 500-equivalent crash); on a present id it returns
the stored name as `audio_url` together with that audio's segments. -/
theorem audio_data_absent_crashes_present_returns :
    (∀ (db : DB) (a : String), lookupAudio db a = none →
        audio_data db a = Except.error ReadErr.crash) ∧
    (∀ (db : DB) (a : String) (row : AudioRow), lookupAudio db a = some row →
        audio_data db a =
          Except.ok ⟨"/audio/" ++ row.filename, (segmentsFor db a).map toSeg⟩) :=
  ⟨fun _ _ h => audio_data_none h, fun _ _ _ h => audio_data_some h⟩

/-- C1 counterexample: at the concrete input (empty store, id `"missing"`) the
handler's result is the crash, which is not the NotFound result the claim
asserts. -/
theorem audio_data_unknown_id_not_notFound :
    audio_data ⟨[], []⟩ "missing" = Except.error ReadErr.crash ∧
    (Except.error ReadErr.crash : Except ReadErr Detail) ≠ Except.error ReadErr.notFound := by
  refine ⟨rfl, fun h => ?_⟩
  injection h with h1
  exact ReadErr.noConfusion h1

/-- Witness for `audio_data_absent_crashes_present_returns` at concrete stores. -/
theorem audio_data_absent_crashes_present_returns_witness :
    audio_data ⟨[], []⟩ "a" = Except.error ReadErr.crash ∧
    audio_data ⟨[⟨"a", "a_f", "f"⟩], [⟨"a", 0, 1, "t"⟩]⟩ "a" =
      Except.ok ⟨"/audio/" ++ "a_f",
        (segmentsFor ⟨[⟨"a", "a_f", "f"⟩], [⟨"a", 0, 1, "t"⟩]⟩ "a").map toSeg⟩ :=
  ⟨audio_data_absent_crashes_present_returns.1 ⟨[], []⟩ "a" rfl,
   audio_data_absent_crashes_present_returns.2
     ⟨[⟨"a", "a_f", "f"⟩], [⟨"a", 0, 1, "t"⟩]⟩ "a" ⟨"a", "a_f", "f"⟩ rfl⟩

/-- C5: if persisting the uploaded bytes fails (the `open` or the `write`
raises), `transcribe` aborts with the save error and the relational store is
exactly as before: neither an audio row nor a segment row was inserted. -/
theorem transcribe_save_failure_aborts (st : Sys) (a n : String) (save : SaveOutcome)
    (collab : Except Unit (List Seg)) (h : save ≠ SaveOutcome.ok) :
    (transcribe st a n save collab).1 = some UploadErr.saveFailed ∧
    (transcribe st a n save collab).2.db = st.db := by
  cases save with
  | ok => exact absurd rfl h
  | openFailed => exact ⟨rfl, rfl⟩
  | writeFailed => exact ⟨rfl, rfl⟩

/-- Witness for `transcribe_save_failure_aborts` at a concrete state. -/
theorem transcribe_save_failure_aborts_witness :
    SaveOutcome.openFailed ≠ SaveOutcome.ok ∧
    ((transcribe initSys "u1" "f.mp3" SaveOutcome.openFailed (Except.ok [])).1 =
        some UploadErr.saveFailed ∧
      (transcribe initSys "u1" "f.mp3" SaveOutcome.openFailed (Except.ok [])).2.db =
        initSys.db) :=
  ⟨by decide,
   transcribe_save_failure_aborts initSys "u1" "f.mp3" SaveOutcome.openFailed
     (Except.ok []) (by decide)⟩

/-- C8: a present, parseable config file overrides the defaults key by key,
with the defaults filling exactly the missing keys of `language`, `model_size`
and `device`, and nothing is created; an absent config file is created holding
exactly the defaults, which are then used. -/
theorem load_config_defaults_merge :
    (∀ cf : ConfigFile,
        load_config (ConfigFileState.present (some cf)) =
          ({ language := cf.language.getD default_config.language,
             model_size := cf.model_size.getD default_config.model_size,
             device := cf.device.getD default_config.device }, none)) ∧
    load_config ConfigFileState.absent = (default_config, some default_config) :=
  ⟨fun _ => rfl, rfl⟩

/-- C10: `GET /audio/...` serves the unvalidated join of the uploads directory
with the request's filename, and a filename with parent-directory components
resolves outside the uploads directory — no containment check exists. -/
theorem get_audio_unvalidated_join_traversal :
    (∀ f : String, headIsSlash f = false → get_audio f = UPLOAD_DIR ++ "/" ++ f) ∧
    (∃ f : String, ".." ∈ pathComponents f ∧ ¬ resolvedInsideUploads (get_audio f)) := by
  constructor
  · intro f hf
    have h1 : lastIsSlash UPLOAD_DIR = false := rfl
    have h2 : ¬ (UPLOAD_DIR = "") := by decide
    simp [get_audio, joinPath, hf, h1, h2]
  · refine ⟨"../app.db", by decide, ?_⟩
    rintro ⟨rest, h⟩
    have hres : resolvePath (get_audio "../app.db") = ["app.db"] := by decide
    rw [hres] at h
    injection h with h1 h2
    exact absurd h1 (by decide)

/-- Witness for `get_audio_unvalidated_join_traversal` at a concrete filename. -/
theorem get_audio_unvalidated_join_traversal_witness :
    headIsSlash "a.mp3" = false ∧ get_audio "a.mp3" = UPLOAD_DIR ++ "/" ++ "a.mp3" :=
  ⟨rfl, get_audio_unvalidated_join_traversal.1 "a.mp3" rfl⟩

lemma transcribe_ok_eq (st : Sys) (a n : String) (segs : List Seg)
    (hA : ∀ r ∈ st.db.audio, r.id ≠ a) :
    transcribe st a n SaveOutcome.ok (Except.ok segs) =
      (none,
       ⟨⟨st.db.audio ++ [⟨a, a ++ "_" ++ n, n⟩],
         st.db.segments ++ segs.map (toRow a)⟩,
        st.files ++ [joinPath UPLOAD_DIR (a ++ "_" ++ n)]⟩) := by
  have hany : st.db.audio.any (fun r => r.id == a) = false := by
    simp only [List.any_eq_false]
    intro r hr
    simpa using hA r hr
  simp [transcribe, hany]

lemma find?_id_append (l : List AudioRow) (a : String) (row : AudioRow)
    (hA : ∀ r ∈ l, r.id ≠ a) (h : row.id = a) :
    (l ++ [row]).find? (fun r => r.id == a) = some row := by
  rw [List.find?_append]
  have h1 : l.find? (fun r => r.id == a) = none := by
    simp only [List.find?_eq_none]
    intro r hr
    simpa using hA r hr
  simp [h1, List.find?, h]

lemma segmentsFor_append_fresh (old : List SegmentRow) (a : String) (segs : List Seg)
    (hS : ∀ s ∈ old, s.audio_id ≠ a) :
    (old ++ segs.map (toRow a)).filter (fun s => s.audio_id == a) = segs.map (toRow a) := by
  rw [List.filter_append]
  have h1 : old.filter (fun s => s.audio_id == a) = [] := by
    simp only [List.filter_eq_nil_iff]
    intro s hs
    simpa using hS s hs
  have h2 : (segs.map (toRow a)).filter (fun s => s.audio_id == a) = segs.map (toRow a) := by
    rw [List.filter_eq_self]
    intro s hs
    rcases List.mem_map.mp hs with ⟨t, _, rfl⟩
    simp [toRow]
  rw [h1, h2, List.nil_append]

lemma map_toSeg_toRow (a : String) (segs : List Seg) :
    (segs.map (toRow a)).map toSeg = segs := by
  rw [List.map_map]
  have h : (toSeg ∘ toRow a) = id := by
    funext s
    rfl
  rw [h, List.map_id]

lemma audio_data_after_transcribe (st : Sys) (a n : String) (segs : List Seg)
    (hA : ∀ r ∈ st.db.audio, r.id ≠ a) (hS : ∀ s ∈ st.db.segments, s.audio_id ≠ a) :
    audio_data ((transcribe st a n SaveOutcome.ok (Except.ok segs)).2).db a =
      Except.ok ⟨"/audio/" ++ (a ++ "_" ++ n), segs⟩ := by
  simp only [transcribe_ok_eq st a n segs hA]
  rw [audio_data_some (show lookupAudio
      ⟨st.db.audio ++ [⟨a, a ++ "_" ++ n, n⟩], st.db.segments ++ segs.map (toRow a)⟩ a =
        some ⟨a, a ++ "_" ++ n, n⟩ from
    find?_id_append st.db.audio a ⟨a, a ++ "_" ++ n, n⟩ hA rfl)]
  rw [show segmentsFor
      ⟨st.db.audio ++ [⟨a, a ++ "_" ++ n, n⟩], st.db.segments ++ segs.map (toRow a)⟩ a =
        segs.map (toRow a) from
    segmentsFor_append_fresh st.db.segments a segs hS]
  rw [map_toSeg_toRow]

/-- C2: when the collaborator returns an ordered list of segments and the
generated id is fresh, the segments returned by `GET /audio_data` for that
upload are exactly that list — same triples, same order, no loss, no
duplication — and in particular of the same length. -/
theorem transcribe_audio_data_roundtrip (st : Sys) (a n : String) (segs : List Seg)
    (hA : ∀ r ∈ st.db.audio, r.id ≠ a) (hS : ∀ s ∈ st.db.segments, s.audio_id ≠ a) :
    ∃ d : Detail,
      audio_data ((transcribe st a n SaveOutcome.ok (Except.ok segs)).2).db a =
        Except.ok d ∧
      d.segments = segs ∧ d.segments.length = segs.length :=
  ⟨⟨"/audio/" ++ (a ++ "_" ++ n), segs⟩,
   audio_data_after_transcribe st a n segs hA hS, rfl, rfl⟩

/-- Witness for `transcribe_audio_data_roundtrip`: an upload onto the empty
store whose collaborator produced two segments. -/
theorem transcribe_audio_data_roundtrip_witness :
    ∃ d : Detail,
      audio_data ((transcribe initSys "u1" "lesson1.mp3" SaveOutcome.ok
          (Except.ok [⟨0, 5/2, "hello"⟩, ⟨5/2, 5, "there"⟩])).2).db "u1" =
        Except.ok d ∧
      d.segments = [⟨0, 5/2, "hello"⟩, ⟨5/2, 5, "there"⟩] ∧
      d.segments.length = ([⟨0, 5/2, "hello"⟩, ⟨5/2, 5, "there"⟩] : List Seg).length :=
  transcribe_audio_data_roundtrip initSys "u1" "lesson1.mp3"
    [⟨0, 5/2, "hello"⟩, ⟨5/2, 5, "there"⟩] (by simp [initSys]) (by simp [initSys])

/-- C4: after a successful upload with original name `n` under the fresh id
`a`, `GET /library` includes the pair `(a, n)`, the stored asset name is
`a ++ "_" ++ n` (both in the audio row and as the saved file's path), and the
`audio_url` later returned by `audio_data` is derived from that stored name. -/
theorem transcribe_upload_postcondition (st : Sys) (a n : String) (segs : List Seg)
    (hA : ∀ r ∈ st.db.audio, r.id ≠ a) :
    (transcribe st a n SaveOutcome.ok (Except.ok segs)).1 = none ∧
    (a, n) ∈ library ((transcribe st a n SaveOutcome.ok (Except.ok segs)).2).db ∧
    lookupAudio ((transcribe st a n SaveOutcome.ok (Except.ok segs)).2).db a =
      some ⟨a, a ++ "_" ++ n, n⟩ ∧
    joinPath UPLOAD_DIR (a ++ "_" ++ n) ∈
      ((transcribe st a n SaveOutcome.ok (Except.ok segs)).2).files ∧
    ∃ d : Detail,
      audio_data ((transcribe st a n SaveOutcome.ok (Except.ok segs)).2).db a =
        Except.ok d ∧
      d.audio_url = "/audio/" ++ (a ++ "_" ++ n) := by
  have hfind : lookupAudio
      ⟨st.db.audio ++ [⟨a, a ++ "_" ++ n, n⟩], st.db.segments ++ segs.map (toRow a)⟩ a =
        some ⟨a, a ++ "_" ++ n, n⟩ :=
    find?_id_append st.db.audio a ⟨a, a ++ "_" ++ n, n⟩ hA rfl
  simp only [transcribe_ok_eq st a n segs hA]
  refine ⟨by trivial, ?_, ?_, ?_, ?_⟩
  · unfold library
    exact List.mem_map.mpr ⟨⟨a, a ++ "_" ++ n, n⟩, List.mem_append_right _ (by simp), rfl⟩
  · exact hfind
  · exact List.mem_append_right _ (by simp)
  · rw [audio_data_some hfind]
    exact ⟨_, rfl, rfl⟩

/-- Witness for `transcribe_upload_postcondition`: the first upload onto the
empty store. -/
theorem transcribe_upload_postcondition_witness :
    (transcribe initSys "u1" "f.mp3" SaveOutcome.ok (Except.ok [⟨0, 1, "t"⟩])).1 = none ∧
    ("u1", "f.mp3") ∈
      library ((transcribe initSys "u1" "f.mp3" SaveOutcome.ok (Except.ok [⟨0, 1, "t"⟩])).2).db ∧
    lookupAudio ((transcribe initSys "u1" "f.mp3" SaveOutcome.ok (Except.ok [⟨0, 1, "t"⟩])).2).db "u1" =
      some ⟨"u1", "u1" ++ "_" ++ "f.mp3", "f.mp3"⟩ ∧
    joinPath UPLOAD_DIR ("u1" ++ "_" ++ "f.mp3") ∈
      ((transcribe initSys "u1" "f.mp3" SaveOutcome.ok (Except.ok [⟨0, 1, "t"⟩])).2).files ∧
    ∃ d : Detail,
      audio_data ((transcribe initSys "u1" "f.mp3" SaveOutcome.ok (Except.ok [⟨0, 1, "t"⟩])).2).db "u1" =
        Except.ok d ∧
      d.audio_url = "/audio/" ++ ("u1" ++ "_" ++ "f.mp3") :=
  transcribe_upload_postcondition initSys "u1" "f.mp3" [⟨0, 1, "t"⟩] (by simp [initSys])

/-- C6: for an id present in the store because of an upload with a fresh id,
if the collaborator's ordered output has non-decreasing `start` values then so
do the segments returned by `GET /audio_data` for that id, in the order
returned. -/
theorem transcribe_audio_data_starts_mono (st : Sys) (a n : String) (segs : List Seg)
    (hA : ∀ r ∈ st.db.audio, r.id ≠ a) (hS : ∀ s ∈ st.db.segments, s.audio_id ≠ a)
    (hmono : List.Chain' (fun x y : Seg => x.start ≤ y.start) segs) :
    ∃ d : Detail,
      audio_data ((transcribe st a n SaveOutcome.ok (Except.ok segs)).2).db a =
        Except.ok d ∧
      List.Chain' (fun x y : Seg => x.start ≤ y.start) d.segments :=
  ⟨⟨"/audio/" ++ (a ++ "_" ++ n), segs⟩,
   audio_data_after_transcribe st a n segs hA hS, hmono⟩

/-- Witness for `transcribe_audio_data_starts_mono`: two segments with
increasing starts, uploaded onto the empty store. -/
theorem transcribe_audio_data_starts_mono_witness :
    List.Chain' (fun x y : Seg => x.start ≤ y.start) [⟨0, 1, "s"⟩, ⟨2, 3, "t"⟩] ∧
    ∃ d : Detail,
      audio_data ((transcribe initSys "u1" "f.mp3" SaveOutcome.ok
          (Except.ok [⟨0, 1, "s"⟩, ⟨2, 3, "t"⟩])).2).db "u1" =
        Except.ok d ∧
      List.Chain' (fun x y : Seg => x.start ≤ y.start) d.segments :=
  ⟨List.chain'_cons.mpr ⟨by norm_num, List.chain'_singleton _⟩,
   transcribe_audio_data_starts_mono initSys "u1" "f.mp3" [⟨0, 1, "s"⟩, ⟨2, 3, "t"⟩]
     (by simp [initSys]) (by simp [initSys])
     (List.chain'_cons.mpr ⟨by norm_num, List.chain'_singleton _⟩)⟩

lemma delete_audio_absent (st : Sys) (a : String) (h : lookupAudio st.db a = none) :
    delete_audio st a = Except.ok (st, "not_found") := by
  unfold delete_audio
  rw [h]

lemma delete_audio_present (st : Sys) (a : String) (row : AudioRow)
    (h : lookupAudio st.db a = some row) :
    delete_audio st a =
      Except.ok
        (⟨⟨st.db.audio.filter (fun r => r.id != a),
           st.db.segments.filter (fun s => s.audio_id != a)⟩,
          if joinPath UPLOAD_DIR row.filename ∈ st.files then
            st.files.filter (fun q => q != joinPath UPLOAD_DIR row.filename)
          else st.files⟩, "deleted") := by
  unfold delete_audio
  rw [h]
  by_cases hf : joinPath UPLOAD_DIR row.filename ∈ st.files
  · simp [os_remove, hf, Except.bind]
  · simp [hf, Except.bind]

lemma lookupAudio_after_delete (st : Sys) (a : String) (st1 : Sys) (s : String)
    (h : delete_audio st a = Except.ok (st1, s)) :
    lookupAudio st1.db a = none := by
  cases hlook : lookupAudio st.db a with
  | none =>
      rw [delete_audio_absent st a hlook] at h
      simp only [Except.ok.injEq, Prod.mk.injEq] at h
      obtain ⟨h1, _⟩ := h
      subst h1
      exact hlook
  | some row =>
      rw [delete_audio_present st a row hlook] at h
      simp only [Except.ok.injEq, Prod.mk.injEq] at h
      obtain ⟨h1, _⟩ := h
      subst h1
      unfold lookupAudio
      simp only [List.find?_eq_none]
      intro r hr
      have := (List.mem_filter.mp hr).2
      simp only [bne_iff_ne, ne_eq] at this
      simpa using this

/-- C3: deleting is total and idempotent: a present id yields `"deleted"`, an
absent id yields `"not_found"` without any error, every delete succeeds (the
handler never raises), deleting an already-deleted id reports `"not_found"`
and changes nothing, and when the physical file is already missing the delete
still succeeds without touching the disk (`os.remove` is guarded by
`os.path.exists`). -/
theorem delete_audio_idempotent_never_errors :
    (∀ (st : Sys) (a : String), lookupAudio st.db a = none →
        delete_audio st a = Except.ok (st, "not_found")) ∧
    (∀ (st : Sys) (a : String) (row : AudioRow), lookupAudio st.db a = some row →
        ∃ st1, delete_audio st a = Except.ok (st1, "deleted")) ∧
    (∀ (st : Sys) (a : String), ∃ out, delete_audio st a = Except.ok out) ∧
    (∀ (st : Sys) (a : String) (st1 : Sys) (s : String),
        delete_audio st a = Except.ok (st1, s) →
        delete_audio st1 a = Except.ok (st1, "not_found")) ∧
    (∀ (st : Sys) (a : String) (row : AudioRow), lookupAudio st.db a = some row →
        joinPath UPLOAD_DIR row.filename ∉ st.files →
        ∃ st1, delete_audio st a = Except.ok (st1, "deleted") ∧ st1.files = st.files) := by
  refine ⟨delete_audio_absent, ?_, ?_, ?_, ?_⟩
  · intro st a row h
    exact ⟨_, delete_audio_present st a row h⟩
  · intro st a
    cases hlook : lookupAudio st.db a with
    | none => exact ⟨(st, "not_found"), delete_audio_absent st a hlook⟩
    | some row => exact ⟨_, delete_audio_present st a row hlook⟩
  · intro st a st1 s h
    exact delete_audio_absent st1 a (lookupAudio_after_delete st a st1 s h)
  · intro st a row h h2
    refine ⟨⟨⟨st.db.audio.filter (fun r => r.id != a),
              st.db.segments.filter (fun s => s.audio_id != a)⟩, st.files⟩, ?_, rfl⟩
    rw [delete_audio_present st a row h, if_neg h2]

/-- Witness for `delete_audio_idempotent_never_errors` at concrete states:
an absent id, a present id, delete-after-delete, and a present id whose file
is already missing. -/
theorem delete_audio_idempotent_never_errors_witness :
    delete_audio initSys "a" = Except.ok (initSys, "not_found") ∧
    (∃ st1, delete_audio ⟨⟨[⟨"a", "a_f", "f"⟩], [⟨"a", 0, 1, "t"⟩]⟩, ["uploads/a_f"]⟩ "a" =
        Except.ok (st1, "deleted")) ∧
    delete_audio initSys "a" = Except.ok (initSys, "not_found") ∧
    (∃ st1, delete_audio ⟨⟨[⟨"b", "b_g", "g"⟩], []⟩, []⟩ "b" =
        Except.ok (st1, "deleted") ∧
      st1.files = (⟨⟨[⟨"b", "b_g", "g"⟩], []⟩, []⟩ : Sys).files) :=
  ⟨delete_audio_idempotent_never_errors.1 initSys "a" rfl,
   delete_audio_idempotent_never_errors.2.1
     ⟨⟨[⟨"a", "a_f", "f"⟩], [⟨"a", 0, 1, "t"⟩]⟩, ["uploads/a_f"]⟩ "a" ⟨"a", "a_f", "f"⟩ rfl,
   delete_audio_idempotent_never_errors.2.2.2.1 initSys "a" initSys "not_found" rfl,
   delete_audio_idempotent_never_errors.2.2.2.2
     ⟨⟨[⟨"b", "b_g", "g"⟩], []⟩, []⟩ "b" ⟨"b", "b_g", "g"⟩ rfl (by decide)⟩

/-- C7: deleting one audio id removes only that id's audio row, its segment
rows, and its physical file: for every other id the audio rows and segment
rows are unchanged, and every file other than the deleted id's stored file is
still present — so two uploads are independently deletable. -/
theorem delete_audio_frame (st : Sys) (a : String) (st1 : Sys) (s : String)
    (h : delete_audio st a = Except.ok (st1, s)) :
    ∀ b : String, b ≠ a →
      st1.db.audio.filter (fun r => r.id == b) = st.db.audio.filter (fun r => r.id == b) ∧
      st1.db.segments.filter (fun r => r.audio_id == b) =
        st.db.segments.filter (fun r => r.audio_id == b) ∧
      ∀ p ∈ st.files,
        (∀ row : AudioRow, lookupAudio st.db a = some row →
            p ≠ joinPath UPLOAD_DIR row.filename) →
        p ∈ st1.files := by
  intro b hb
  cases hlook : lookupAudio st.db a with
  | none =>
      rw [delete_audio_absent st a hlook] at h
      simp only [Except.ok.injEq, Prod.mk.injEq] at h
      obtain ⟨h1, _⟩ := h
      subst h1
      exact ⟨rfl, rfl, fun p hp _ => hp⟩
  | some row =>
      rw [delete_audio_present st a row hlook] at h
      simp only [Except.ok.injEq, Prod.mk.injEq] at h
      obtain ⟨h1, _⟩ := h
      subst h1
      refine ⟨?_, ?_, ?_⟩
      · rw [List.filter_filter]
        apply List.filter_congr
        intro x _
        by_cases hx : x.id = b
        · have hxa : (x.id != a) = true := by simp [bne_iff_ne, hx, hb]
          simp [hx, hxa, hb]
        · simp [hx]
      · rw [List.filter_filter]
        apply List.filter_congr
        intro x _
        by_cases hx : x.audio_id = b
        · have hxa : (x.audio_id != a) = true := by simp [bne_iff_ne, hx, hb]
          simp [hx, hxa, hb]
        · simp [hx]
      · intro p hp hne
        show p ∈ (if joinPath UPLOAD_DIR row.filename ∈ st.files then
            st.files.filter (fun q => q != joinPath UPLOAD_DIR row.filename)
          else st.files)
        by_cases hf : joinPath UPLOAD_DIR row.filename ∈ st.files
        · rw [if_pos hf]
          refine List.mem_filter.mpr ⟨hp, ?_⟩
          simp only [bne_iff_ne, ne_eq]
          simpa using hne row rfl
        · rw [if_neg hf]
          exact hp

/-- Witness for `delete_audio_frame`: deleting the first of two uploads leaves
the second upload's row, segment and file intact. -/
theorem delete_audio_frame_witness :
    (⟨⟨[⟨"b", "b_g", "g"⟩], [⟨"b", 0, 1, "t"⟩]⟩, ["uploads/b_g"]⟩ : Sys).db.audio.filter
        (fun r => r.id == "b") =
      (⟨⟨[⟨"a", "a_f", "f"⟩, ⟨"b", "b_g", "g"⟩],
         [⟨"a", 0, 1, "s"⟩, ⟨"b", 0, 1, "t"⟩]⟩,
        ["uploads/a_f", "uploads/b_g"]⟩ : Sys).db.audio.filter (fun r => r.id == "b") ∧
    (⟨⟨[⟨"b", "b_g", "g"⟩], [⟨"b", 0, 1, "t"⟩]⟩, ["uploads/b_g"]⟩ : Sys).db.segments.filter
        (fun r => r.audio_id == "b") =
      (⟨⟨[⟨"a", "a_f", "f"⟩, ⟨"b", "b_g", "g"⟩],
         [⟨"a", 0, 1, "s"⟩, ⟨"b", 0, 1, "t"⟩]⟩,
        ["uploads/a_f", "uploads/b_g"]⟩ : Sys).db.segments.filter
        (fun r => r.audio_id == "b") ∧
    "uploads/b_g" ∈ (⟨⟨[⟨"b", "b_g", "g"⟩], [⟨"b", 0, 1, "t"⟩]⟩, ["uploads/b_g"]⟩ : Sys).files := by
  have happ := delete_audio_frame
    ⟨⟨[⟨"a", "a_f", "f"⟩, ⟨"b", "b_g", "g"⟩],
      [⟨"a", 0, 1, "s"⟩, ⟨"b", 0, 1, "t"⟩]⟩, ["uploads/a_f", "uploads/b_g"]⟩ "a"
    ⟨⟨[⟨"b", "b_g", "g"⟩], [⟨"b", 0, 1, "t"⟩]⟩, ["uploads/b_g"]⟩ "deleted"
    (by rfl) "b" (by decide)
  refine ⟨happ.1, happ.2.1, ?_⟩
  refine happ.2.2 "uploads/b_g" (by decide) ?_
  intro row hrow
  have hrow2 : row = ⟨"a", "a_f", "f"⟩ := by
    have : some (⟨"a", "a_f", "f"⟩ : AudioRow) = some row := by
      rw [← hrow]
      rfl
    injection this with h1
    exact h1.symm
  rw [hrow2]
  decide

lemma refIntegrity_transcribe (st : Sys) (a n : String) (save : SaveOutcome)
    (collab : Except Unit (List Seg)) (h : refIntegrity st.db) :
    refIntegrity ((transcribe st a n save collab).2).db := by
  cases save with
  | openFailed => exact h
  | writeFailed => exact h
  | ok =>
      cases collab with
      | error e => exact h
      | ok segs =>
          simp only [transcribe]
          split
          · exact h
          · intro sgm hs
            rcases List.mem_append.mp hs with hold | hnew
            · obtain ⟨r, hr, hid⟩ := h sgm hold
              exact ⟨r, List.mem_append_left _ hr, hid⟩
            · rcases List.mem_map.mp hnew with ⟨t, _, rfl⟩
              exact ⟨⟨a, a ++ "_" ++ n, n⟩, List.mem_append_right _ (by simp), rfl⟩

lemma refIntegrity_delete (st : Sys) (a : String) (h : refIntegrity st.db)
    (st1 : Sys) (s : String) (hdel : delete_audio st a = Except.ok (st1, s)) :
    refIntegrity st1.db := by
  cases hlook : lookupAudio st.db a with
  | none =>
      rw [delete_audio_absent st a hlook] at hdel
      simp only [Except.ok.injEq, Prod.mk.injEq] at hdel
      obtain ⟨h1, _⟩ := hdel
      subst h1
      exact h
  | some row =>
      rw [delete_audio_present st a row hlook] at hdel
      simp only [Except.ok.injEq, Prod.mk.injEq] at hdel
      obtain ⟨h1, _⟩ := hdel
      subst h1
      intro sgm hs
      have hmem := List.mem_filter.mp hs
      obtain ⟨r, hr, hid⟩ := h sgm hmem.1
      have hsa : sgm.audio_id ≠ a := by simpa [bne_iff_ne] using hmem.2
      refine ⟨r, List.mem_filter.mpr ⟨hr, ?_⟩, hid⟩
      simp [bne_iff_ne, hid, hsa]

lemma refIntegrity_step (st : Sys) (op : Op) (h : refIntegrity st.db) :
    refIntegrity (step st op).db := by
  cases op with
  | upload a n s c => exact refIntegrity_transcribe st a n s c h
  | delete a =>
      simp only [step]
      cases hdel : delete_audio st a with
      | error e => exact h
      | ok out =>
          obtain ⟨st1, s⟩ := out
          exact refIntegrity_delete st a h st1 s hdel
  | viewLibrary => exact h
  | viewDetail a => exact h
  | serveFile f => exact h

lemma foldl_step_refIntegrity :
    ∀ (l : List Op) (st : Sys), refIntegrity st.db → refIntegrity (l.foldl step st).db
  | [], _, h => h
  | op :: rest, st, h =>
      foldl_step_refIntegrity rest (step st op) (refIntegrity_step st op h)

/-- C9: referential integrity is an invariant of the API even though the
schema does not enforce it: after any sequence of completed operations from
startup, every row of the `segments` table carries an `audio_id` for which a
row exists in the `audio` table, because `transcribe` inserts the audio row
before its segment rows and `delete_audio` removes the segment rows together
with the audio row. -/
theorem api_referential_integrity (ops : List Op) : refIntegrity (run ops).db :=
  foldl_step_refIntegrity ops initSys (fun s hs => absurd hs (List.not_mem_nil s))

end Audioscribe
